import Mathlib

/-!
Shallow embedding of the clip-bot core (`src/main.py` of
openpilot-clip-discord): route/URL parsing, bookmark extraction, the job
queue with its worker loop, the two slash-command handlers, and the
one-shot publish button.  Python strings are embedded as `List Char`,
Python ints as `Int`/`Nat`, raised exceptions as `Except`/`Option`
error values.  All definitions are translated from the source; theorems
about the frozen claims follow at the end of the file.
-/

set_option maxRecDepth 8192

namespace ClipBot

/-- Decidable equality for `Except`, so that concrete runs of the
embedded functions can be checked by `decide`. -/
instance {ε α : Type} [DecidableEq ε] [DecidableEq α] : DecidableEq (Except ε α) :=
  fun x y =>
    match x, y with
    | Except.error a, Except.error b =>
      if h : a = b then isTrue (by rw [h]) else isFalse (fun hc => h (Except.error.inj hc))
    | Except.ok a, Except.ok b =>
      if h : a = b then isTrue (by rw [h]) else isFalse (fun hc => h (Except.ok.inj hc))
    | Except.error _, Except.ok _ => isFalse (fun hc => Except.noConfusion hc)
    | Except.ok _, Except.error _ => isFalse (fun hc => Except.noConfusion hc)

/-! ### Character classes (Python `re` on printable ASCII text)

`\S` in Python is any non-whitespace character.  For `str` patterns the
whitespace class also contains Unicode whitespace and the ASCII
separators `\x1c`-`\x1f`, and `\d` matches any Unicode decimal digit;
the classes below are the restrictions to printable ASCII
(`0x20`-`0x7e`), where the only whitespace is the space character and
the only digits are `0`-`9`.  Theorems that quantify over arbitrary
input text therefore carry the `inputOk` guard defined further down,
which restricts to printable ASCII. -/

def isPySpace (c : Char) : Bool :=
  c = ' ' || c = '\t' || c = '\n' || c = '\r' || c = '\x0b' || c = '\x0c'

def isNonSpace (c : Char) : Bool := !(isPySpace c)

/-! ### Fixed-regex matching primitives

The three regexes of `main.py` are built only from fixed-count `\S{n}`,
literal characters and greedy `\d+`, so matching (Python `re.match`,
anchored at position 0) is deterministic and needs no backtracking.
Each primitive returns the consumed characters and the remaining text. -/

/-- Consume exactly `n` non-space characters (`\S{n}`). -/
def takeNonSpace : Nat → List Char → Option (List Char × List Char)
  | 0, s => some ([], s)
  | _ + 1, [] => none
  | n + 1, c :: cs =>
    if isNonSpace c then
      (takeNonSpace n cs).map fun p => (c :: p.1, p.2)
    else none

/-- Consume one expected literal character. -/
def expectChar (c : Char) : List Char → Option (List Char)
  | [] => none
  | x :: xs => if x = c then some xs else none

/-- Consume a maximal run of decimal digits (`\d` restricted to the
ASCII digits `0`-`9`; on printable ASCII this is exact). -/
def takeDigits : List Char → List Char × List Char
  | [] => ([], [])
  | c :: cs =>
    if c.isDigit then
      match takeDigits cs with
      | (a, b) => (c :: a, b)
    else ([], c :: cs)

/-- Consume a maximal, non-empty run of digits (greedy `\d+`). -/
def takeDigits1 (s : List Char) : Option (List Char × List Char) :=
  match takeDigits s with
  | ([], _) => none
  | (a, b) => some (a, b)

/-- Model of `route_regex = re.compile(r'\S{16}\/\S{8}--\S{10}')` applied
with `.match`: on success, the matched text and the rest of the input.
All pieces are fixed-length, so the sequential composition below is the
regex's (backtracking-free) matching behaviour. -/
def routeRegexMatchR (s : List Char) : Option (List Char × List Char) :=
  (takeNonSpace 16 s).bind fun p16 =>
    (expectChar '/' p16.2).bind fun s2 =>
      (takeNonSpace 8 s2).bind fun p8 =>
        (expectChar '-' p8.2).bind fun s4 =>
          (expectChar '-' s4).bind fun s5 =>
            (takeNonSpace 10 s5).map fun p10 =>
              (p16.1 ++ '/' :: p8.1 ++ '-' :: '-' :: p10.1, p10.2)

/-- Model of `route_with_time_regex = re.compile(r'\S{16}\/\S{8}--\S{10}\/\d+\/\d+')`
applied with `.match`.  Greedy `\d+` followed by `/` needs no
backtracking either: a digit run can never contain the required `/`. -/
def routeWithTimeRegexMatchR (s : List Char) : Option (List Char × List Char) :=
  (routeRegexMatchR s).bind fun pm =>
    (expectChar '/' pm.2).bind fun s2 =>
      (takeDigits1 s2).bind fun p1 =>
        (expectChar '/' p1.2).bind fun s4 =>
          (takeDigits1 s4).map fun p2 =>
            (pm.1 ++ '/' :: p1.1 ++ '/' :: p2.1, p2.2)

/-! ### URL handling (`link_regex` and `urlparse(...).path`) -/

/-- Model of `link_regex = re.compile(r'https?://\S+')` applied with
`.match`: the input must begin with the scheme, followed by at least one
non-space character; the match is the scheme plus the maximal run of
non-space characters. -/
def linkMatch (s : List Char) : Option (List Char) :=
  if ("https://".toList).isPrefixOf s then
    let body := (s.drop 8).takeWhile isNonSpace
    if body.isEmpty then none else some ("https://".toList ++ body)
  else if ("http://".toList).isPrefixOf s then
    let body := (s.drop 7).takeWhile isNonSpace
    if body.isEmpty then none else some ("http://".toList ++ body)
  else none

/-- Model of `urlparse(url).path` for an `http(s)` URL as produced by
`linkMatch`: drop the scheme, drop the authority (everything up to the
first slash), and cut the path at the first query or fragment marker.
This is `urlparse` restricted to the URLs accepted by `urlModelOk`
(defined below): CPython's `urlparse` raises
`ValueError: Invalid IPv6 URL` when the authority contains `[` without
`]` or vice versa, ends the authority also at `?` or `#`, and strips
`;params` from the last path segment — none of which this function
reproduces, so theorems quantifying over arbitrary input carry the
`inputOk` guard. -/
def urlPath (url : List Char) : List Char :=
  let afterScheme := if ("https://".toList).isPrefixOf url then url.drop 8 else url.drop 7
  (afterScheme.dropWhile (fun c => !(c = '/'))).takeWhile (fun c => !(c = '?' || c = '#'))

/-- The text the route regexes are matched against: `path[1:]` of the URL
when the input matches `link_regex`, otherwise the input itself.  Both
`get_route` and `get_route_and_time` start with this same step. -/
def targetOf (routeText : List Char) : List Char :=
  match linkMatch routeText with
  | some l => (urlPath l).drop 1
  | none => routeText

/-! ### The fragment on which the embedding is exact

The regex classes above restrict Python's Unicode `\S`/`\d` to printable
ASCII, and `urlPath` reproduces `urlparse(...).path` only for URLs whose
authority is bracket-free (otherwise CPython raises
`ValueError: Invalid IPv6 URL`) and is terminated by `/` rather than by
`?` or `#`, and whose path carries no `;params`.  `inputOk` is the
decidable guard for that fragment; universally quantified theorems about
the parsing functions assume it. -/

def asciiPrintable (c : Char) : Bool := 0x20 ≤ c.toNat && c.toNat < 0x7f

/-- The URLs on which `urlPath` agrees with CPython `urlparse(...).path`:
the authority contains no square bracket (so `urlparse` does not raise),
the authority is terminated by `/` (or runs to the end), and the path
contains no `;`. -/
def urlModelOk (l : List Char) : Bool :=
  let a := if ("https://".toList).isPrefixOf l then l.drop 8 else l.drop 7
  let netloc := a.takeWhile fun c => !(c = '/' || c = '?' || c = '#')
  let rest := a.dropWhile fun c => !(c = '/' || c = '?' || c = '#')
  let path := (a.dropWhile fun c => !(c = '/')).takeWhile fun c => !(c = '?' || c = '#')
  !(netloc.contains '[') && !(netloc.contains ']') &&
    (rest.isEmpty || rest.headD ' ' == '/') && !(path.contains ';')

/-- Inputs on which the embedding of `get_route`/`get_route_and_time` is
exact: printable ASCII throughout, and when the text matches
`link_regex`, the matched URL lies in the `urlModelOk` fragment. -/
def inputOk (s : List Char) : Bool :=
  s.all asciiPrintable &&
    (match linkMatch s with
     | some l => urlModelOk l
     | none => true)

/-! ### `get_route` and `get_route_and_time` -/

/-- Model of `get_route` (main.py:112-123): the matched route text, or
`none` (Python `None`) when the regex does not match. -/
def get_route (routeText : List Char) : Option (List Char) :=
  match routeRegexMatchR (targetOf routeText) with
  | none => none
  | some (m, _) => some m

/-- Python `str.split('/')`. -/
def splitSlash : List Char → List (List Char)
  | [] => [[]]
  | c :: cs =>
    if c = '/' then [] :: splitSlash cs
    else
      match splitSlash cs with
      | [] => [[c]]
      | p :: ps => (c :: p) :: ps

/-- Python `'/'.join(...)`. -/
def joinSlash : List (List Char) → List Char
  | [] => []
  | [x] => x
  | x :: xs => x ++ '/' :: joinSlash xs

/-- Model of the tuple unpacking `start_str, end_str = parts`: succeeds
exactly when the list has exactly two elements, otherwise Python raises
`ValueError`. -/
def unpack2 (l : List (List Char)) : Option (List Char × List Char) :=
  match l with
  | [a, b] => some (a, b)
  | _ => none

/-- Python `int` on a string of decimal digits. -/
def digitsToNat (s : List Char) : Nat :=
  s.foldl (fun acc c => acc * 10 + (c.toNat - '0'.toNat)) 0

/-- Model of `get_route_and_time` (main.py:126-141).  `Except.ok none`
is Python returning `None` (no regex match); `Except.ok (some _)` is the
returned `(route, start, end)`; `Except.error ()` is an uncaught
exception (the `start_str, end_str = route.split('/')[2:]` unpacking
raises `ValueError` when the split does not give exactly two parts). -/
def get_route_and_time (routeText : List Char) :
    Except Unit (Option (List Char × Nat × Nat)) :=
  match routeWithTimeRegexMatchR (targetOf routeText) with
  | none => Except.ok none
  | some (m, _) =>
    let parts := splitSlash m
    match unpack2 (parts.drop 2) with
    | none => Except.error ()
    | some (a, b) =>
      Except.ok (some (joinSlash (parts.take 2), digitsToNat a, digitsToNat b))

/-! ### Bookmark extraction (`get_user_flags`, main.py:144-158)

A route's data is a segment list; fetching each segment's event list is
an independent I/O call that may raise, and loading the route itself may
raise too — both are embedded as `Except Unit`.  In the source the
per-segment work runs on a `ThreadPoolExecutor` whose `map` iterator is
never consumed, so an exception inside `process_segment` is captured in
its future and silently dropped: that segment simply contributes no
offsets.  The sequential embedding below reflects exactly that. -/

structure Event where
  type : String
  route_offset_millis : Nat
deriving DecidableEq

/-- Python `round(ms / 1000)`: nearest integer with ties to even
(`ms / 1000` is exact in double precision for every realistic offset,
so the float division introduces no further rounding). -/
def round_ms_to_sec (ms : Nat) : Nat :=
  let q := ms / 1000
  let r := ms % 1000
  if r < 500 then q
  else if 500 < r then q + 1
  else if q % 2 = 0 then q else q + 1

/-- The offsets one segment's `process_segment` appends: one
`round(route_offset_millis / 1000)` per `user_flag` event, in event
order. -/
def process_segment (evs : List Event) : List Nat :=
  evs.filterMap fun e =>
    if e.type = "user_flag" then some (round_ms_to_sec e.route_offset_millis) else none

/-- What one segment contributes to the shared list: its flag offsets if
its event fetch succeeds, nothing if the fetch raises (the exception is
captured in the unconsumed `executor.map` iterator and discarded). -/
def segContribution : Except Unit (List Event) → List Nat
  | Except.ok evs => process_segment evs
  | Except.error _ => []

/-- The shared `user_flags_at_time` list after all segment tasks finish,
in segment order (thread scheduling can permute it; the final sort makes
the order immaterial — see the C6 theorem). -/
def collectFlags (segs : List (Except Unit (List Event))) : List Nat :=
  (segs.map segContribution).flatten

/-- Model of `get_user_flags` applied to a loaded segment list:
`sorted(user_flags_at_time)`. -/
def get_user_flags (segs : List (Except Unit (List Event))) : List Nat :=
  List.insertionSort (· ≤ ·) (collectFlags segs)

/-- Model of the whole `get_user_flags` call including the `Route(route)`
load: a route whose segment list cannot be loaded raises (FetchError). -/
def extract (routeData : Except Unit (List (Except Unit (List Event)))) :
    Except Unit (List Nat) :=
  match routeData with
  | Except.error e => Except.error e
  | Except.ok segs => Except.ok (get_user_flags segs)

/-! ### `ClipRequest` and its message formatting (main.py:27-87) -/

def CONNECT_URL : List Char := "https://connect.comma.ai".toList

structure ClipRequest where
  route : List Char
  title : Option (List Char)
  start_time : Int
  end_time : Int
  bookmark_time_sec : Option Nat
deriving DecidableEq

def is_bookmark (r : ClipRequest) : Bool := r.bookmark_time_sec.isSome

/-- Python `str` of a natural number. -/
def natRepr (n : Nat) : List Char := Nat.toDigits 10 n

/-- Python `str` of an integer. -/
def intRepr : Int → List Char
  | Int.ofNat n => natRepr n
  | Int.negSucc n => '-' :: natRepr (n + 1)

def route_with_time (r : ClipRequest) : List Char :=
  r.route ++ '/' :: intRepr r.start_time ++ '/' :: intRepr r.end_time

/-- `format_route` (main.py:23-24). -/
def format_route (rwt : List Char) : List Char :=
  "[`".toList ++ rwt ++ "`](".toList ++ CONNECT_URL ++ '/' :: rwt ++ ")".toList

def formatted_route (r : ClipRequest) : List Char :=
  format_route (route_with_time r)

/-- Python `f'{n:02d}'` for a non-negative value. -/
def pad2 (n : Nat) : List Char :=
  if n < 10 then '0' :: natRepr n else natRepr n

/-- `bookmark_time_str` for a bookmark offset in seconds (`MM:SS`). -/
def bookmark_time_str (sec : Nat) : List Char :=
  pad2 (sec / 60) ++ ':' :: pad2 (sec % 60)

/-- `formatted_bookmark_time` of a bookmark-derived request. -/
def formatted_bookmark_time (r : ClipRequest) : List Char :=
  "[`".toList ++ bookmark_time_str (r.bookmark_time_sec.getD 0) ++ "`](".toList ++
    CONNECT_URL ++ '/' :: route_with_time r ++ ")".toList

def output_file_name (r : ClipRequest) : List Char :=
  (r.route.map fun c => if c = '/' then '-' else c) ++ ".mp4".toList

/-! ### Job handling (`process_clip`, main.py:161-180, and `worker`,
main.py:183-190)

The notifications a job's `origin` receives: `post_processing_message`
with the initial "clipping ..." text is a progress notification,
`post_success` a success, `post_error` a failure.  The renderer
subprocess either completes with an exit code, captured stderr and an
output file that may or may not exist, or its invocation raises.
Whether a notification send itself raises (a chat-API error) is part of
the per-job environment.

On the success path the source calls
`request.post_success(discord.File(path))`, and `post_success` wraps its
argument in `discord.File` once more; `discord.File` on anything but a
path or a readable buffer calls `open` on it, which raises `TypeError`.
So when the artifact exists the success branch raises `TypeError`
(before any success message is sent), and when it does not exist the
`discord.File(path)` argument itself raises `FileNotFoundError`; either
way the `except` posts a failure. -/

inductive RenderOutcome where
  | completed (returncode : Int) (stderr : List Char) (artifact_exists : Bool)
  | raised (msg : List Char)
deriving DecidableEq

structure JobEnv where
  outcome : RenderOutcome
  progressPostRaises : Bool
  errorPostRaises : Bool
deriving DecidableEq

inductive Notification where
  | progress (content : List Char)
  | success (content : List Char)
  | failure (content : List Char)
deriving DecidableEq

def isTerminal : Notification → Bool
  | Notification.progress _ => false
  | Notification.success _ => true
  | Notification.failure _ => true

/-- The initial `f'clipping {self.formatted_route}'` message. -/
def clippingMsg (r : ClipRequest) : List Char :=
  "clipping ".toList ++ formatted_route r

/-- The content `post_error` posts for a given error message. -/
def errorContent (r : ClipRequest) (msg : List Char) : List Char :=
  "clip of ".toList ++ formatted_route r ++
    " failed due to unknown reason:\n\n```\n".toList ++ msg ++ "\n```".toList

/-- Modeled message of the `TypeError` raised by `discord.File` on a
`File` argument. -/
def typeErrMsg : List Char :=
  "expected str, bytes or os.PathLike object, not File".toList

/-- Modeled message of the `FileNotFoundError` raised by `discord.File`
on a missing path. -/
def fnfMsg (p : List Char) : List Char :=
  "[Errno 2] No such file or directory: ".toList ++ p

/-- Model of `process_clip`.  `Except.ok ns` means the call returned
normally after sending the notification list `ns`; `Except.error ()`
means an exception escaped `process_clip` (a raising pre-`try` progress
post, or a raising failure post inside the `except` handler). -/
def process_clip (req : ClipRequest) (env : JobEnv) : Except Unit (List Notification) :=
  match (if is_bookmark req then some ([] : List Notification)
         else if env.progressPostRaises then none
         else some [Notification.progress (clippingMsg req)]) with
  | none => Except.error ()
  | some pre =>
    let tryResult : Except (List Char) (List Notification) :=
      match env.outcome with
      | RenderOutcome.raised m => Except.error m
      | RenderOutcome.completed code stderr artifactExists =>
        if code ≠ 0 then
          if env.errorPostRaises then Except.error ("error post raised".toList)
          else Except.ok [Notification.failure (errorContent req stderr)]
        else if artifactExists then Except.error typeErrMsg
        else Except.error (fnfMsg (output_file_name req))
    match tryResult with
    | Except.ok ns => Except.ok (pre ++ ns)
    | Except.error m =>
      if env.errorPostRaises then Except.error ()
      else Except.ok (pre ++ [Notification.failure (errorContent req m)])

structure WorkerResult where
  handled : List (List Notification)
  task_done_count : Nat
  alive : Bool
deriving DecidableEq

/-- Model of one worker task draining its queue: `queue.get()`, then
`try: process_clip(request) finally: queue.task_done()`.  The loop has
no `except` clause, so an exception escaping `process_clip` still runs
`task_done` (the `finally`) but then terminates the task: the worker is
no longer alive and the remaining queued jobs are never handled. -/
def worker : List (ClipRequest × JobEnv) → WorkerResult
  | [] => ⟨[], 0, true⟩
  | (req, env) :: rest =>
    match process_clip req env with
    | Except.ok ns =>
      let w := worker rest
      ⟨ns :: w.handled, w.task_done_count + 1, w.alive⟩
    | Except.error _ => ⟨[], 1, false⟩

/-! ### The `/clip` command (main.py:202-222) -/

inductive ClipReply where
  | invalid
  | tooLong (maxLen : Int)
  | queued (depth : Nat)
  | raisedError
deriving DecidableEq

/-- Model of the `clip` command handler: parse, validate the window
length against `MAX_CLIP_LEN_S`, report the queue depth observed before
the put, then enqueue.  Returns the reply and the new queue. -/
def clip (maxLen : Int) (routeText : List Char) (title : Option (List Char))
    (q : List ClipRequest) : ClipReply × List ClipRequest :=
  match get_route_and_time routeText with
  | Except.error _ => (ClipReply.raisedError, q)
  | Except.ok none => (ClipReply.invalid, q)
  | Except.ok (some (r, s, e)) =>
    if (e : Int) - (s : Int) > maxLen then (ClipReply.tooLong maxLen, q)
    else (ClipReply.queued q.length, q ++ [⟨r, title, (s : Int), (e : Int), none⟩])

/-! ### The `/bookmarks` command (main.py:233-268) -/

inductive BookmarksReply where
  | ignoredBot
  | invalid
  | raisedFetchError
  | noBookmarks
  | queuedBookmarks (details : List (List Char))
deriving DecidableEq

def before_flag_buffer : Int := 10
def after_flag_buffer : Int := 5

/-- The request the `bookmarks` loop builds for one flag offset:
`start_time = flag - 10`, `end_time = flag + 5` (no clamping). -/
def mkBookmarkRequest (r : List Char) (flag : Nat) : ClipRequest :=
  ⟨r, none, (flag : Int) - before_flag_buffer, (flag : Int) + after_flag_buffer, some flag⟩

/-- Model of the `bookmarks` command handler.  `ds` is the external
route/event data source keyed by route id (`Route(route).segments` plus
each segment's event fetch). -/
def bookmarks (authorIsBot : Bool) (routeText : List Char)
    (ds : List Char → Except Unit (List (Except Unit (List Event))))
    (q : List ClipRequest) : BookmarksReply × List ClipRequest :=
  if authorIsBot then (BookmarksReply.ignoredBot, q)
  else
    match get_route routeText with
    | none => (BookmarksReply.invalid, q)
    | some r =>
      match ds r with
      | Except.error _ => (BookmarksReply.raisedFetchError, q)
      | Except.ok segs =>
        let flags := get_user_flags segs
        if flags.isEmpty then (BookmarksReply.noBookmarks, q)
        else
          (BookmarksReply.queuedBookmarks
             (flags.map fun f => formatted_bookmark_time (mkBookmarkRequest r f)),
           q ++ flags.map (mkBookmarkRequest r))

/-! ### The publish button (`VideoPreview.post_button`, main.py:94-108)

The handler restyles its button (label `Posted`, green, disabled), edits
the message with the updated view, and then unconditionally broadcasts
the clip with `interaction.respond`.  No per-job "already published"
flag exists anywhere: every delivered click of the handler broadcasts
once. -/

structure PostButton where
  label : List Char
  emoji : List Char
  isGreen : Bool
  disabled : Bool
deriving DecidableEq

structure VideoPreviewState where
  button : PostButton
  broadcasts : Nat
deriving DecidableEq

def initPreview : VideoPreviewState :=
  ⟨⟨"Post".toList, "▶️".toList, false, false⟩, 0⟩

def post_button (s : VideoPreviewState) : VideoPreviewState :=
  ⟨⟨"Posted".toList, "✅".toList, true, true⟩, s.broadcasts + 1⟩

/-! ### The shared FIFO queue (main.py:91)

`asyncio.Queue` is first-in-first-out: `put` appends, `get` removes the
oldest entry.  A trace interleaves submissions (the `queue.put` calls of
the `clip` and `bookmarks` handlers) with worker dequeues; a dequeue of
an empty queue is not a step (the worker suspends). -/

inductive QueueOp where
  | submit (r : ClipRequest)
  | dequeue
deriving DecidableEq

structure PoolState where
  queue : List ClipRequest
  started : List ClipRequest
deriving DecidableEq

def poolStep : PoolState → QueueOp → Option PoolState
  | s, QueueOp.submit r => some ⟨s.queue ++ [r], s.started⟩
  | s, QueueOp.dequeue =>
    match s.queue with
    | [] => none
    | r :: rest => some ⟨rest, s.started ++ [r]⟩

def poolRun : PoolState → List QueueOp → Option PoolState
  | s, [] => some s
  | s, op :: ops =>
    match poolStep s op with
    | none => none
    | some s' => poolRun s' ops

/-- The jobs a trace submits, in submission order. -/
def submitted : List QueueOp → List ClipRequest
  | [] => []
  | QueueOp.submit r :: ops => r :: submitted ops
  | QueueOp.dequeue :: ops => submitted ops

/-! ### Grammar conformance (used to characterise `get_route`)

A text conforms to the route grammar exactly when `route_regex` consumes
all of it. -/

def routeConformB (p : List Char) : Bool :=
  match routeRegexMatchR p with
  | some (_, rest) => rest.isEmpty
  | none => false

/-! ### Concrete inputs used by the claim theorems -/

def ufEvent (ms : Nat) : Event := ⟨"user_flag", ms⟩

def okSeg (ms : Nat) : Except Unit (List Event) := Except.ok [ufEvent ms]

def routeA : List Char := "aaaaaaaaaaaaaaaa/00000008--abcdefghij".toList

def clipReqA : ClipRequest := ⟨routeA, none, 10, 20, none⟩

def envRenderOk : JobEnv := ⟨RenderOutcome.completed 0 [] true, false, false⟩

def envProgressRaises : JobEnv := ⟨RenderOutcome.completed 0 [] true, true, false⟩

def urlOrigC7 : List Char :=
  "https://connect.comma.ai/abcdefgh12345678/2024-01-01--00-00-00--xy/10/20".toList

def bareOrigC7 : List Char := "abcdefgh12345678/2024-01-01--00-00-00--xy/10/20".toList

def urlGoodC7 : List Char :=
  "https://connect.comma.ai/abcdefgh12345678/00000008--abcdefghij/10/20".toList

def bareGoodC7 : List Char := "abcdefgh12345678/00000008--abcdefghij/10/20".toList

def routeGoodC7 : List Char := "abcdefgh12345678/00000008--abcdefghij".toList

def slashTokenInput : List Char := "aaaa/aaaaaaaaaaa/00000008--abcdefghij/10/20".toList

def urlQueryC8 : List Char :=
  "https://connect.comma.ai/abcdefgh12345678/00000008--abcdefghij/10/20?foo=bar".toList

def dsOneFlag : List Char → Except Unit (List (Except Unit (List Event))) :=
  fun _ => Except.ok [okSeg 1000]

def clipInputBackward : List Char := "aaaaaaaaaaaaaaaa/00000008--abcdefghij/20/10".toList

def clipInputGood : List Char := "aaaaaaaaaaaaaaaa/00000008--abcdefghij/10/20".toList

def clipInputTooLong : List Char := "aaaaaaaaaaaaaaaa/00000008--abcdefghij/10/50".toList

/-! ## Theorems about the claims -/

/-- C1 counterexample: on a route whose segments yield user flags at
millisecond offsets `[1500, 500, 1500]`, `extract` does not return
`[1, 2]`: Python `round` rounds half to even (`round(0.5) = 0`,
`round(1.5) = 2`) and `sorted` does not deduplicate, so the result is
`[0, 2, 2]`. -/
theorem C1_counterexample :
    extract (Except.ok [okSeg 1500, okSeg 500, okSeg 1500]) = Except.ok [0, 2, 2] ∧
      extract (Except.ok [okSeg 1500, okSeg 500, okSeg 1500]) ≠ Except.ok [1, 2] := by
  decide

/-- C1 amended: `extract` returns the sorted-ascending sequence of the
flags' time offsets with duplicates retained, each offset converted from
milliseconds with Python's `round` (nearest integer, ties to even); for
flags at millisecond offsets `[1500, 500, 1500]` it returns
`[0, 2, 2]`. -/
theorem C1_theorem :
    (∀ segs, List.Sorted (· ≤ ·) (get_user_flags segs) ∧
       (get_user_flags segs).Perm (collectFlags segs)) ∧
      extract (Except.ok [okSeg 1500, okSeg 500, okSeg 1500]) = Except.ok [0, 2, 2] := by
  refine ⟨fun segs => ⟨List.sorted_insertionSort _ _, List.perm_insertionSort _ _⟩, ?_⟩
  decide

/-- C2 counterexample: the `post_button` handler keeps no per-job
"already published" flag; each delivered invocation broadcasts, so two
invocations on the same succeeded job's view emit two broadcast
notifications, not exactly one. -/
theorem C2_counterexample :
    (post_button (post_button initPreview)).broadcasts = 2 ∧
      (post_button (post_button initPreview)).broadcasts ≠ 1 := by
  decide

/-- C2 amended: every invocation of the publish handler emits exactly one
further broadcast and leaves the button disabled and relabelled
`Posted`; at-most-once publication is enforced only at the interaction
surface (the disabled button, once the message edit lands), not by any
per-job fired flag in the core, so concurrent triggers that both reach
the handler each broadcast. -/
theorem C2_theorem :
    ∀ s, (post_button s).broadcasts = s.broadcasts + 1 ∧
      (post_button s).button.disabled = true ∧
      (post_button s).button.label = "Posted".toList :=
  fun _ => ⟨rfl, rfl, rfl⟩

/-- C3 (code bug): on a job whose renderer exits with code 0 and whose
output artifact exists, `process_clip` posts a failure, not a success:
`request.post_success(discord.File(path))` hands a `discord.File` to
`post_success`, which wraps it in `discord.File` again, and `open` on a
`File` raises `TypeError`; the `except` then posts a failure whose
detail is the `TypeError` message.  Exactly one terminal notification is
still sent, but it is never a success. -/
theorem C3_theorem :
    process_clip clipReqA envRenderOk =
      Except.ok [Notification.progress (clippingMsg clipReqA),
        Notification.failure (errorContent clipReqA typeErrMsg)] ∧
      List.countP isTerminal [Notification.progress (clippingMsg clipReqA),
        Notification.failure (errorContent clipReqA typeErrMsg)] = 1 := by
  decide

/-- C4 counterexample: a job whose pre-`try` progress notification raises
crashes the worker: `process_clip` sends that message outside its
`try`, and the worker loop's `try/finally` has no `except` clause, so
the exception ends the worker task (`alive = false`) after `task_done`,
and the second queued job is never handled. -/
theorem C4_counterexample :
    worker [(clipReqA, envProgressRaises), (clipReqA, envRenderOk)] = ⟨[], 1, false⟩ := by
  decide

/-- C6 counterexample: a failed segment fetch does not make the whole
extraction fail: the exception is captured in the never-consumed
`executor.map` iterator, the failed segment contributes nothing, and
`extract` returns the remaining offsets normally instead of a
`FetchError`. -/
theorem C6_counterexample :
    extract (Except.ok [okSeg 1500, Except.error ()]) = Except.ok [2] ∧
      extract (Except.ok [okSeg 1500, Except.error ()]) ≠ Except.error () := by
  decide

/-- C7 counterexample: neither the URL form
`https://connect.comma.ai/abcdefgh12345678/2024-01-01--00-00-00--xy/10/20`
nor the bare form `abcdefgh12345678/2024-01-01--00-00-00--xy/10/20`
parses: the token `2024-01-01--00-00-00--xy` does not have `--` at its
8th and 9th characters, so `route_with_time_regex`
(`\S{16}/\S{8}--\S{10}/\d+/\d+`) fails and both calls return `None`. -/
theorem C7_counterexample :
    get_route_and_time urlOrigC7 = Except.ok none ∧
      get_route_and_time bareOrigC7 = Except.ok none := by
  decide

/-- C7 amended: for a route whose second token does conform to the
`<8-char>--<10-char>` grammar, the URL form and the bare form parse
successfully and to the identical `(route, 10, 20)`, the route being the
grammar-conforming prefix; the original example's second token violates
the grammar and both of its forms return `None`. -/
theorem C7_theorem :
    get_route_and_time urlGoodC7 = Except.ok (some (routeGoodC7, 10, 20)) ∧
      get_route_and_time bareGoodC7 = Except.ok (some (routeGoodC7, 10, 20)) := by
  decide

/-- C8 counterexample: `get_route_and_time` raises (here `Except.error`)
on `aaaa/aaaaaaaaaaa/00000008--abcdefghij/10/20` instead of returning a
result: `\S` also matches `/`, so the 16-character token of the match
contains a slash and `start_str, end_str = route.split('/')[2:]` raises
`ValueError: too many values to unpack`. -/
theorem C8_counterexample :
    get_route_and_time slashTokenInput = Except.error () := by
  decide

/-- C5 counterexample: the explicit `/clip` handler checks only
`end - start > MAX_CLIP_LEN_S`, so the request `.../20/10` — whose
window violates `start < end` — is enqueued rather than rejected; and a
bookmark at offset 1s yields an enqueued job with
`start_time = 1 - 10 = -9`, not clamped at 0. -/
theorem C5_counterexample :
    clip 30 clipInputBackward none [] =
        (ClipReply.queued 0, [⟨routeA, none, 20, 10, none⟩]) ∧
      (bookmarks false routeA dsOneFlag []).2 = [⟨routeA, none, -9, 6, some 1⟩] ∧
      ¬ ((20 : Int) < 10) ∧ (-9 : Int) < 0 := by
  decide

/-- C5 amended: an explicit request is rejected (queue unchanged) exactly
when `end - start` exceeds the configured maximum; an accepted explicit
job therefore satisfies `0 ≤ start`, `0 ≤ end` and
`end - start ≤ max`, but nothing rejects `end ≤ start`.  A
bookmark-derived job gets the window from 10s before to 5s after the
bookmark offset with no clamping, so its start may be negative; the
`bookmarks` handler either leaves the queue unchanged or appends exactly
one such job per extracted flag. -/
theorem C5_theorem :
    (∀ (maxLen : Int) (rt : List Char) (t : Option (List Char)) (q : List ClipRequest)
       (r : List Char) (s e : Nat),
       get_route_and_time rt = Except.ok (some (r, s, e)) →
         ((e : Int) - (s : Int) > maxLen →
            clip maxLen rt t q = (ClipReply.tooLong maxLen, q)) ∧
         ((e : Int) - (s : Int) ≤ maxLen →
            clip maxLen rt t q =
              (ClipReply.queued q.length, q ++ [⟨r, t, (s : Int), (e : Int), none⟩]) ∧
            0 ≤ (s : Int) ∧ 0 ≤ (e : Int) ∧ (e : Int) - (s : Int) ≤ maxLen)) ∧
      (∀ (r : List Char) (f : Nat),
        (mkBookmarkRequest r f).start_time = (f : Int) - 10 ∧
          (mkBookmarkRequest r f).end_time = (f : Int) + 5) ∧
      ∀ (bot : Bool) (rt : List Char)
        (ds : List Char → Except Unit (List (Except Unit (List Event))))
        (q : List ClipRequest),
        (bookmarks bot rt ds q).2 = q ∨
          ∃ r segs, get_route rt = some r ∧ ds r = Except.ok segs ∧
            (bookmarks bot rt ds q).2 =
              q ++ (get_user_flags segs).map (mkBookmarkRequest r) := by
  refine ⟨?_, fun r f => ⟨rfl, rfl⟩, ?_⟩
  · intro maxLen rt t q r s e hparse
    constructor
    · intro hgt
      unfold clip
      rw [hparse]
      simp [hgt]
    · intro hle
      refine ⟨?_, Int.natCast_nonneg s, Int.natCast_nonneg e, hle⟩
      unfold clip
      rw [hparse]
      simp [not_lt.mpr hle]
  · intro bot rt ds q
    cases bot with
    | true => exact Or.inl rfl
    | false =>
      cases hr : get_route rt with
      | none => exact Or.inl (by simp [bookmarks, hr])
      | some r =>
        cases hds : ds r with
        | error e => exact Or.inl (by simp [bookmarks, hr, hds])
        | ok segs =>
          by_cases hf : (get_user_flags segs).isEmpty
          · exact Or.inl (by simp [bookmarks, hr, hds, hf])
          · exact Or.inr ⟨r, segs, rfl, hds, by simp [bookmarks, hr, hds, hf]⟩

/-- Witness for the C5 theorem: a 40s window is rejected with the queue
unchanged; a valid 10s window is enqueued. -/
theorem C5_witness :
    clip 30 clipInputTooLong none [] = (ClipReply.tooLong 30, []) ∧
      clip 30 clipInputGood none [] =
        (ClipReply.queued 0, [⟨routeA, none, 10, 20, none⟩]) := by
  have h := C5_theorem
  refine ⟨(h.1 30 clipInputTooLong none [] routeA 10 50 (by decide)).1 (by decide), ?_⟩
  exact ((h.1 30 clipInputGood none [] routeA 10 20 (by decide)).2 (by decide)).1

/-- Helper: when neither notification send of a job raises,
`process_clip` returns normally and its notification list contains
exactly one terminal (success or failure) notification. -/
theorem process_clip_no_raise (req : ClipRequest) (env : JobEnv)
    (h1 : env.progressPostRaises = false) (h2 : env.errorPostRaises = false) :
    ∃ ns, process_clip req env = Except.ok ns ∧ ns.countP isTerminal = 1 := by
  obtain ⟨outcome, pr, er⟩ := env
  simp only [JobEnv.progressPostRaises] at h1
  simp only [JobEnv.errorPostRaises] at h2
  subst h1; subst h2
  rcases outcome with ⟨code, stderr, ae⟩ | m
  · by_cases hc : code = 0
    · cases ae <;> cases hb : is_bookmark req <;>
        simp [process_clip, hb, hc, List.countP_cons, List.countP_nil, isTerminal]
    · cases hb : is_bookmark req <;>
        simp [process_clip, hb, hc, List.countP_cons, List.countP_nil, isTerminal]
  · cases hb : is_bookmark req <;>
      simp [process_clip, hb, List.countP_cons, List.countP_nil, isTerminal]

/-- C4 amended: render-time failures (renderer errors, missing
artifacts, invocation exceptions) are caught inside `process_clip` and
surfaced as the job's failure, so when the notification sends themselves
do not raise, the worker loop stays alive and handles every queued job
with exactly one terminal notification; but an exception from the
pre-`try` progress notification or from posting the failure message
propagates out of `process_clip`, and the worker loop's `try/finally`
(which has no `except` clause) then releases the queue slot via
`task_done` but terminates the worker task, leaving later queued jobs
unhandled by it. -/
theorem C4_theorem :
    ∀ jobs : List (ClipRequest × JobEnv),
      (∀ p ∈ jobs, p.2.progressPostRaises = false ∧ p.2.errorPostRaises = false) →
        (worker jobs).alive = true ∧ (worker jobs).handled.length = jobs.length ∧
          ∀ ns ∈ (worker jobs).handled, ns.countP isTerminal = 1 := by
  intro jobs
  induction jobs with
  | nil =>
    intro _
    refine ⟨rfl, rfl, ?_⟩
    intro ns h
    cases h
  | cons hd tl ih =>
    intro h
    obtain ⟨req, env⟩ := hd
    obtain ⟨h1, h2⟩ := h (req, env) (List.mem_cons_self _ _)
    obtain ⟨ns, hns, hcount⟩ := process_clip_no_raise req env h1 h2
    have ih' := ih fun p hp => h p (List.mem_cons_of_mem _ hp)
    refine ⟨?_, ?_, ?_⟩
    · simpa [worker, hns] using ih'.1
    · simpa [worker, hns] using ih'.2.1
    · intro ms hm
      simp only [worker, hns] at hm
      rcases List.mem_cons.mp hm with h' | hm'
      · subst h'; exact hcount
      · exact ih'.2.2 ms hm'

/-- Witness for the C4 theorem at a one-job queue whose notification
sends do not raise. -/
theorem C4_witness :
    (worker [(clipReqA, envRenderOk)]).alive = true ∧
      (worker [(clipReqA, envRenderOk)]).handled.length = [(clipReqA, envRenderOk)].length ∧
      ∀ ns ∈ (worker [(clipReqA, envRenderOk)]).handled, ns.countP isTerminal = 1 :=
  C4_theorem [(clipReqA, envRenderOk)] (by decide)

/-- C6 amended: the concurrent per-segment collection is
order-independent — sorting any permutation of the collected offsets
gives exactly the sequential result — and failure to load the route's
segment list propagates; but a failed individual segment fetch is
silently swallowed (its exception sits in the never-consumed
`executor.map` iterator): the failed segment simply contributes no
offsets and extraction still returns normally. -/
theorem C6_theorem :
    (∀ segs l', l'.Perm (collectFlags segs) →
       List.insertionSort (· ≤ ·) l' = get_user_flags segs) ∧
      (∀ pre post, extract (Except.ok (pre ++ Except.error () :: post)) =
        extract (Except.ok (pre ++ post))) ∧
      extract (Except.error ()) = Except.error () := by
  refine ⟨fun segs l' hp => ?_, fun pre post => ?_, rfl⟩
  · exact List.eq_of_perm_of_sorted
      (((List.perm_insertionSort _ _).trans hp).trans (List.perm_insertionSort _ _).symm)
      (List.sorted_insertionSort _ _) (List.sorted_insertionSort _ _)
  · simp [extract, get_user_flags, collectFlags, segContribution]

/-- Witness for the C6 theorem: sorting a permuted concurrent collection
of two segments' flags equals the sequential extraction result. -/
theorem C6_witness :
    List.insertionSort (· ≤ ·) [0, 2] = get_user_flags [okSeg 1500, okSeg 500] :=
  C6_theorem.1 [okSeg 1500, okSeg 500] [0, 2] (by decide)

/-- C9: a validated explicit single-clip request is enqueued at the back
of the queue and the submitter is told the queue depth observed before
their own job was added. -/
theorem C9_theorem :
    ∀ (maxLen : Int) (rt : List Char) (t : Option (List Char)) (q : List ClipRequest)
      (r : List Char) (s e : Nat),
      get_route_and_time rt = Except.ok (some (r, s, e)) →
      (e : Int) - (s : Int) ≤ maxLen →
      clip maxLen rt t q =
        (ClipReply.queued q.length, q ++ [⟨r, t, (s : Int), (e : Int), none⟩]) := by
  intro maxLen rt t q r s e hparse hlen
  unfold clip
  rw [hparse]
  simp [not_lt.mpr hlen]

/-- Witness for the C9 theorem: the first submitter to an empty queue is
told depth 0, and while that job is queued the next submitter is told
depth 1. -/
theorem C9_witness :
    (clip 30 clipInputGood none []).1 = ClipReply.queued 0 ∧
      (clip 30 clipInputGood none ((clip 30 clipInputGood none []).2)).1 =
        ClipReply.queued 1 := by
  have h1 := C9_theorem 30 clipInputGood none [] routeA 10 20 (by decide) (by decide)
  have h2 := C9_theorem 30 clipInputGood none ((clip 30 clipInputGood none []).2)
    routeA 10 20 (by decide) (by decide)
  refine ⟨by rw [h1]; rfl, by rw [h2]; decide⟩

/-- Helper invariant: a pool trace preserves
`started ++ queue = initial started ++ initial queue ++ submissions`. -/
theorem poolRun_invariant :
    ∀ (ops : List QueueOp) (s0 s : PoolState), poolRun s0 ops = some s →
      s.started ++ s.queue = s0.started ++ (s0.queue ++ submitted ops) := by
  intro ops
  induction ops with
  | nil =>
    intro s0 s h
    simp only [poolRun, Option.some.injEq] at h
    subst h
    simp [submitted]
  | cons op tl ih =>
    intro s0 s h
    cases op with
    | submit r =>
      simp only [poolRun, poolStep] at h
      have h' := ih _ _ h
      simp only [submitted]
      simpa [List.append_assoc] using h'
    | dequeue =>
      simp only [poolRun, poolStep] at h
      cases hq : s0.queue with
      | nil => rw [hq] at h; cases h
      | cons r rest =>
        rw [hq] at h
        have h' := ih _ _ h
        simp only [submitted, hq]
        simpa [List.append_assoc] using h'

/-- C10: the shared queue is FIFO — along every valid trace from the
empty pool, the jobs already dequeued followed by the jobs still queued
are exactly the submissions in submission order (so the single worker
starts jobs strictly in enqueue order), and each dequeue removes
exactly the oldest queued job. -/
theorem C10_theorem :
    (∀ ops s, poolRun ⟨[], []⟩ ops = some s → s.started ++ s.queue = submitted ops) ∧
      ∀ (st : PoolState) (r : ClipRequest) (rest : List ClipRequest),
        st.queue = r :: rest →
          poolStep st QueueOp.dequeue = some ⟨rest, st.started ++ [r]⟩ := by
  constructor
  · intro ops s h
    simpa using poolRun_invariant ops ⟨[], []⟩ s h
  · intro st r rest hq
    simp [poolStep, hq]

/-- Witness for the C10 theorem at the trace submit-submit-dequeue. -/
theorem C10_witness :
    (PoolState.mk [⟨routeGoodC7, none, 10, 20, none⟩] [clipReqA]).started ++
        (PoolState.mk [⟨routeGoodC7, none, 10, 20, none⟩] [clipReqA]).queue =
      submitted [QueueOp.submit clipReqA,
        QueueOp.submit ⟨routeGoodC7, none, 10, 20, none⟩, QueueOp.dequeue] :=
  C10_theorem.1
    [QueueOp.submit clipReqA, QueueOp.submit ⟨routeGoodC7, none, 10, 20, none⟩,
      QueueOp.dequeue]
    ⟨[⟨routeGoodC7, none, 10, 20, none⟩], [clipReqA]⟩ (by decide)

/-- Helper: a successful `takeNonSpace` run decomposes its input. -/
theorem takeNonSpace_eq_some :
    ∀ (n : Nat) (s a b : List Char), takeNonSpace n s = some (a, b) →
      s = a ++ b ∧ a.length = n ∧ ∀ c ∈ a, isNonSpace c = true := by
  intro n
  induction n with
  | zero =>
    intro s a b h
    simp only [takeNonSpace, Option.some.injEq, Prod.mk.injEq] at h
    obtain ⟨ha, hb⟩ := h
    subst ha; subst hb
    simp
  | succ n ih =>
    intro s a b h
    cases s with
    | nil => cases h
    | cons c cs =>
      simp only [takeNonSpace] at h
      by_cases hc : isNonSpace c = true
      · rw [if_pos hc, Option.map_eq_some'] at h
        obtain ⟨⟨a', b'⟩, hm, hab⟩ := h
        cases hab
        obtain ⟨h1, h2, h3⟩ := ih cs a' b' hm
        subst h1
        refine ⟨rfl, by simp [h2], ?_⟩
        intro x hx
        rcases List.mem_cons.mp hx with h' | hx'
        · subst h'; exact hc
        · exact h3 x hx'
      · rw [if_neg hc] at h; cases h

/-- Helper: `takeNonSpace` succeeds on a non-space block followed by
anything. -/
theorem takeNonSpace_append :
    ∀ (a b : List Char), (∀ c ∈ a, isNonSpace c = true) →
      takeNonSpace a.length (a ++ b) = some (a, b) := by
  intro a
  induction a with
  | nil => intro b _; rfl
  | cons c cs ih =>
    intro b h
    have hc : isNonSpace c = true := h c (List.mem_cons_self _ _)
    have hcs := ih b fun x hx => h x (List.mem_cons_of_mem _ hx)
    simp only [List.length_cons, List.cons_append, takeNonSpace, hc, if_pos,
      List.append_eq, hcs, Option.map_some']

theorem expectChar_eq_some :
    ∀ (c : Char) (s t : List Char), expectChar c s = some t → s = c :: t := by
  intro c s t h
  cases s with
  | nil => cases h
  | cons x xs =>
    simp only [expectChar] at h
    by_cases hx : x = c
    · rw [if_pos hx] at h
      cases h
      rw [hx]
    · rw [if_neg hx] at h; cases h

theorem expectChar_cons (c : Char) (t : List Char) : expectChar c (c :: t) = some t := by
  simp [expectChar]

/-- Helper: a successful `route_regex` match decomposes the input into
its three fixed-length non-space tokens, the match and the trailing
rest. -/
theorem routeRegexMatchR_eq_some {s m r : List Char}
    (h : routeRegexMatchR s = some (m, r)) :
    ∃ t16 t8 t10 : List Char,
      t16.length = 16 ∧ t8.length = 8 ∧ t10.length = 10 ∧
      (∀ c ∈ t16, isNonSpace c = true) ∧ (∀ c ∈ t8, isNonSpace c = true) ∧
      (∀ c ∈ t10, isNonSpace c = true) ∧
      m = t16 ++ '/' :: t8 ++ '-' :: '-' :: t10 ∧ s = m ++ r := by
  unfold routeRegexMatchR at h
  simp only [Option.bind_eq_some, Option.map_eq_some'] at h
  obtain ⟨⟨t16, s1⟩, h16, s2, hsl, ⟨t8, s3⟩, h8, s4, hd1, s5, hd2, ⟨t10, s6⟩, h10, hfin⟩ := h
  obtain ⟨e16, l16, n16⟩ := takeNonSpace_eq_some 16 s t16 s1 h16
  obtain ⟨e8, l8, n8⟩ := takeNonSpace_eq_some 8 s2 t8 s3 h8
  obtain ⟨e10, l10, n10⟩ := takeNonSpace_eq_some 10 s5 t10 s6 h10
  have es1 := expectChar_eq_some '/' _ _ hsl
  have es3 := expectChar_eq_some '-' _ _ hd1
  have es4 := expectChar_eq_some '-' _ _ hd2
  cases hfin
  refine ⟨t16, t8, t10, l16, l8, l10, n16, n8, n10, rfl, ?_⟩
  subst e16; subst es1; subst e8; subst es3; subst es4; subst e10
  simp [List.append_assoc]

/-- Helper: `route_regex` matches a well-formed token block and leaves
exactly the trailing rest. -/
theorem routeRegexMatchR_build (t16 t8 t10 rest : List Char)
    (l16 : t16.length = 16) (l8 : t8.length = 8) (l10 : t10.length = 10)
    (n16 : ∀ c ∈ t16, isNonSpace c = true) (n8 : ∀ c ∈ t8, isNonSpace c = true)
    (n10 : ∀ c ∈ t10, isNonSpace c = true) :
    routeRegexMatchR (t16 ++ ('/' :: (t8 ++ ('-' :: ('-' :: (t10 ++ rest)))))) =
      some (t16 ++ '/' :: t8 ++ '-' :: '-' :: t10, rest) := by
  have h16 := takeNonSpace_append t16 ('/' :: (t8 ++ ('-' :: ('-' :: (t10 ++ rest))))) n16
  rw [l16] at h16
  have h8 := takeNonSpace_append t8 ('-' :: ('-' :: (t10 ++ rest))) n8
  rw [l8] at h8
  have h10 := takeNonSpace_append t10 rest n10
  rw [l10] at h10
  simp only [routeRegexMatchR, h16, h8, h10, expectChar_cons, Option.some_bind,
    Option.map_some']

/-- Helper: `route_regex` consumes a well-formed token block entirely. -/
theorem routeRegexMatchR_self (t16 t8 t10 : List Char)
    (l16 : t16.length = 16) (l8 : t8.length = 8) (l10 : t10.length = 10)
    (n16 : ∀ c ∈ t16, isNonSpace c = true) (n8 : ∀ c ∈ t8, isNonSpace c = true)
    (n10 : ∀ c ∈ t10, isNonSpace c = true) :
    routeRegexMatchR (t16 ++ '/' :: t8 ++ '-' :: '-' :: t10) =
      some (t16 ++ '/' :: t8 ++ '-' :: '-' :: t10, []) := by
  have h := routeRegexMatchR_build t16 t8 t10 [] l16 l8 l10 n16 n8 n10
  simpa [List.append_assoc] using h

/-- Helper: grammar conformance is exactly a full self-match. -/
theorem routeConformB_iff (p : List Char) :
    routeConformB p = true ↔ routeRegexMatchR p = some (p, []) := by
  unfold routeConformB
  cases h : routeRegexMatchR p with
  | none => simp
  | some pr =>
    obtain ⟨m, rest⟩ := pr
    obtain ⟨t16, t8, t10, _, _, _, _, _, _, _, hs⟩ := routeRegexMatchR_eq_some h
    simp only [List.isEmpty_iff, Option.some.injEq, Prod.mk.injEq]
    constructor
    · intro hr
      subst hr
      exact ⟨by simpa using hs.symm, rfl⟩
    · intro hr
      exact hr.2

/-- Helper: `get_route` succeeds exactly when the matched text has a
grammar-conforming prefix. -/
theorem get_route_exists_iff (s : List Char) :
    (∃ r, get_route s = some r) ↔
      ∃ p q, targetOf s = p ++ q ∧ routeConformB p = true := by
  unfold get_route
  cases hm : routeRegexMatchR (targetOf s) with
  | none =>
    constructor
    · rintro ⟨r, hr⟩; cases hr
    · rintro ⟨p, q, htq, hconf⟩
      have hb := (routeConformB_iff p).mp hconf
      obtain ⟨t16, t8, t10, l16, l8, l10, n16, n8, n10, hmp, _⟩ :=
        routeRegexMatchR_eq_some hb
      have hbuild := routeRegexMatchR_build t16 t8 t10 q l16 l8 l10 n16 n8 n10
      have heq : targetOf s = t16 ++ ('/' :: (t8 ++ ('-' :: ('-' :: (t10 ++ q))))) := by
        rw [htq, hmp]
        simp [List.append_assoc]
      rw [heq, hbuild] at hm
      cases hm
  | some pr =>
    obtain ⟨m, rest⟩ := pr
    obtain ⟨t16, t8, t10, l16, l8, l10, n16, n8, n10, hmm, hs⟩ :=
      routeRegexMatchR_eq_some hm
    constructor
    · intro _
      refine ⟨m, rest, hs, (routeConformB_iff m).mpr ?_⟩
      rw [hmm]
      exact routeRegexMatchR_self t16 t8 t10 l16 l8 l10 n16 n8 n10
    · intro _
      exact ⟨m, rfl⟩

/-- Helper: the tuple unpacking fails exactly on a list whose length is
not 2. -/
theorem unpack2_eq_none (l : List (List Char)) : unpack2 l = none ↔ l.length ≠ 2 := by
  rcases l with _ | ⟨a, _ | ⟨b, _ | ⟨c, t⟩⟩⟩ <;> simp [unpack2]

theorem unpack2_eq_some (l : List (List Char)) (a b : List Char) :
    unpack2 l = some (a, b) → l = [a, b] := by
  intro h
  rcases l with _ | ⟨x, _ | ⟨y, _ | ⟨z, t⟩⟩⟩ <;> simp [unpack2] at h
  obtain ⟨ha, hb⟩ := h
  rw [ha, hb]

/-- C8 amended: on the `inputOk` fragment — printable-ASCII input whose
URL form, when the input matches `link_regex`, has a bracket-free
authority terminated by `/` and no `;` in its path (outside it,
`urlparse` itself can raise `ValueError: Invalid IPv6 URL` on mismatched
brackets in the authority, or route characters through its
netloc/query/fragment/params rules, and Python's Unicode `\S`/`\d`
classes exceed ASCII) — `locate` (`get_route`) never raises and succeeds
exactly when the matched text (the input itself, or the URL's path
component with any trailing query or fragment cut off) has a
grammar-conforming prefix, trailing garbage ignored;
`locate_with_window` (`get_route_and_time`) likewise returns `None` when
the grammar does not match, but it raises (`ValueError` from the
split-based unpacking) instead of returning a result exactly when the
regex matches a prefix whose tokens themselves contain `/` characters —
i.e., when the matched text splits into a number of slash-separated
parts other than 4. -/
theorem C8_theorem :
    ∀ s : List Char, inputOk s = true →
      ((∃ r, get_route s = some r) ↔
        ∃ p q, targetOf s = p ++ q ∧ routeConformB p = true) ∧
      ((get_route_and_time s = Except.error ()) ↔
        ∃ m rest, routeWithTimeRegexMatchR (targetOf s) = some (m, rest) ∧
          (splitSlash m).length ≠ 4) := by
  intro s _hok
  refine ⟨get_route_exists_iff s, ?_⟩
  unfold get_route_and_time
  cases hm : routeWithTimeRegexMatchR (targetOf s) with
  | none =>
    constructor
    · intro h; cases h
    · rintro ⟨m, rest, hmr, _⟩; cases hmr
  | some pr =>
    obtain ⟨m, rest⟩ := pr
    show (match unpack2 ((splitSlash m).drop 2) with
          | none => Except.error ()
          | some (a, b) =>
            Except.ok (some (joinSlash ((splitSlash m).take 2), digitsToNat a, digitsToNat b)))
        = Except.error () ↔ _
    cases hu : unpack2 ((splitSlash m).drop 2) with
    | none =>
      constructor
      · intro _
        refine ⟨m, rest, rfl, ?_⟩
        have hne := (unpack2_eq_none _).mp hu
        rw [List.length_drop] at hne
        omega
      · intro _; rfl
    | some ab =>
      obtain ⟨a, b⟩ := ab
      constructor
      · intro h
        exact Except.noConfusion h
      · rintro ⟨m', r', hmr, hlen⟩
        have hm' : m = m' := congrArg (fun p => p.1) (Option.some.inj hmr)
        subst hm'
        have h2 := unpack2_eq_some _ a b hu
        have hl := congrArg List.length h2
        rw [List.length_drop] at hl
        simp only [List.length_cons, List.length_nil] at hl
        omega

/-- Witness for the C8 theorem at a pasted connect URL with a trailing
query string, which lies in the exactly-modeled fragment. -/
theorem C8_witness :
    ((∃ r, get_route urlQueryC8 = some r) ↔
      ∃ p q, targetOf urlQueryC8 = p ++ q ∧ routeConformB p = true) ∧
      ((get_route_and_time urlQueryC8 = Except.error ()) ↔
        ∃ m rest, routeWithTimeRegexMatchR (targetOf urlQueryC8) = some (m, rest) ∧
          (splitSlash m).length ≠ 4) :=
  C8_theorem urlQueryC8 (by decide)

end ClipBot
